import Mathlib

/-!
Shallow embedding of the youworkforthem_collect analysis pipeline
(src/analyse_data/collate_data.py, src/analyse_data/analyse_data.py,
src/acquire_data/expenses_web_scrape.py) and proofs about it.

Tables are modelled as association lists of named rational-valued columns,
dates as (year, month, day) triples ordered lexicographically (ISO-8601
string comparison in the source coincides with this order), and pandas
`rank` as explicit counting functions.
-/

/-- Calendar date, mirroring the ISO-8601 date strings and pandas
timestamps of the source.  Comparison of valid ISO date strings is
lexicographic comparison of (year, month, day). -/
structure Date where
  year : ℕ
  month : ℕ
  day : ℕ
deriving DecidableEq, Repr

/-- Date order: lexicographic on (year, month, day); this is the order
pandas timestamp comparison and ISO string comparison implement. -/
def dateLt (a b : Date) : Prop :=
  a.year < b.year ∨ (a.year = b.year ∧
    (a.month < b.month ∨ (a.month = b.month ∧ a.day < b.day)))

/-- Non-strict date order, lexicographic on (year, month, day). -/
def dateLe (a b : Date) : Prop :=
  a.year < b.year ∨ (a.year = b.year ∧
    (a.month < b.month ∨ (a.month = b.month ∧ a.day ≤ b.day)))

instance (a b : Date) : Decidable (dateLt a b) := by
  unfold dateLt; infer_instance

instance (a b : Date) : Decidable (dateLe a b) := by
  unfold dateLe; infer_instance

/-- Gregorian leap-year test, as used by pandas timestamp arithmetic. -/
def isLeap (y : ℕ) : Bool :=
  (y % 4 == 0 && y % 100 != 0) || (y % 400 == 0)

/-- Cumulative day count before the first day of month `m` in a
non-leap year. -/
def daysBeforeMonth (m : ℕ) : ℕ :=
  match m with
  | 1 => 0
  | 2 => 31
  | 3 => 59
  | 4 => 90
  | 5 => 120
  | 6 => 151
  | 7 => 181
  | 8 => 212
  | 9 => 243
  | 10 => 273
  | 11 => 304
  | 12 => 334
  | _ => 0

/-- Ordinal day of the year of a date. -/
def dayOfYear (d : Date) : ℕ :=
  daysBeforeMonth d.month + (if 2 < d.month && isLeap d.year then 1 else 0) + d.day

/-- Rata-die day number of a Gregorian date; differences of this count
are the `.days` attribute of a pandas timestamp difference. -/
def rataDie (d : Date) : ℤ :=
  365 * ((d.year : ℤ) - 1) + ((d.year : ℤ) - 1) / 4 - ((d.year : ℤ) - 1) / 100
    + ((d.year : ℤ) - 1) / 400 + (dayOfYear d : ℤ)

/-! ## Ranking engine (collate_data.py, df_rank_and_percentile) -/

/-- pandas `Series.rank(method='min', ascending=asc)` on a column with no
missing values: every entry is mapped to 1 plus the number of strictly
better entries (smaller when ascending, larger when descending). -/
def rankMin (asc : Bool) (xs : List ℚ) : List ℚ :=
  xs.map (fun x =>
    (1 : ℚ) + ((xs.filter (fun y => if asc then decide (y < x) else decide (x < y))).length : ℚ))

/-- pandas `Series.rank(method='max', pct=True, ascending=asc)`: every
entry is mapped to the number of entries at least as good (not larger
when ascending, not smaller when descending) divided by the length. -/
def rankMaxPct (asc : Bool) (xs : List ℚ) : List ℚ :=
  xs.map (fun x =>
    ((xs.filter (fun y => if asc then decide (y ≤ x) else decide (x ≤ y))).length : ℚ)
      / (xs.length : ℚ))

/-- A pandas DataFrame restricted to what the ranking engine touches:
an ordered association list of named numeric columns. -/
abbrev Table : Type := List (String × List ℚ)

/-- Column names of a table, in order. -/
def colNames (t : Table) : List String :=
  t.map (fun p => p.1)

/-- Reading a column (`df[name]`); missing columns read as empty. -/
def getCol (t : Table) (name : String) : List ℚ :=
  match t.find? (fun p => p.1 == name) with
  | some p => p.2
  | none => []

/-- Column assignment (`df[name] = values`): overwrites the column in
place when the name exists, otherwise appends it on the right. -/
def setCol (t : Table) (name : String) (v : List ℚ) : Table :=
  if t.any (fun p => p.1 == name) then
    t.map (fun p => if p.1 == name then (name, v) else p)
  else
    t ++ [(name, v)]

/-- `df_rank_and_percentile(df, column, ascending)` from collate_data.py:
copies the frame, adds `column_rank` by min-method ranking of `column`,
then adds `column_percentile` by max-method pct ranking of the rank
column itself. -/
def df_rank_and_percentile (t : Table) (column : String) (ascending : Bool) : Table :=
  let ranks := rankMin ascending (getCol t column)
  let t1 := setCol t (column ++ "_rank") ranks
  let pcts := rankMaxPct ascending (getCol t1 (column ++ "_rank"))
  setCol t1 (column ++ "_percentile") pcts

/-- The rank column `df_rank_and_percentile` adds for a column. -/
def rankColOf (t : Table) (c : String) : List ℚ :=
  getCol (df_rank_and_percentile t c false) (c ++ "_rank")

/-- The percentile column `df_rank_and_percentile` adds for a column. -/
def pctColOf (t : Table) (c : String) : List ℚ :=
  getCol (df_rank_and_percentile t c false) (c ++ "_percentile")

/-! ## Python string primitives used by the analysis stage -/

/-- One step bound for `pyReplaceAux`: fuel is the length of the scanned
list, which suffices because every step consumes at least one element. -/
def pyReplaceAux (pat rep : List Char) : ℕ → List Char → List Char
  | _, [] => []
  | 0, s => s
  | n + 1, c :: cs =>
    if List.isPrefixOf pat (c :: cs) then
      rep ++ pyReplaceAux pat rep n (cs.drop (pat.length - 1))
    else
      c :: pyReplaceAux pat rep n cs

/-- Python `s.replace(pat, rep)`: replace every non-overlapping occurrence
of `pat`, scanning left to right. -/
def pyReplace (s pat rep : String) : String :=
  String.mk (pyReplaceAux pat.data rep.data s.data.length s.data)

/-- Python `s.lower()` (over the character range exercised by the source). -/
def pyLower (s : String) : String :=
  String.mk (s.data.map Char.toLower)

/-- Python `pat in s` substring containment on character lists. -/
def containsSub (s pat : List Char) : Bool :=
  (List.range (s.length + 1)).any (fun i => List.isPrefixOf pat (s.drop i))

/-- Python `s.endswith(post)`. -/
def pyEndsWith (s post : String) : Bool :=
  List.isSuffixOf post.data s.data

/-- Python `s.startswith(pre)`. -/
def pyStartsWith (s p : String) : Bool :=
  List.isPrefixOf p.data s.data

/-! ## Periodicity normalizer (analyse_data.py, calculate_earnings_value
and calculate_hours_worked) -/

/-- One row of the ongoing-earnings table (PublishedInterest-Category_1.2)
after the calculation window columns were added; optional fields model
pandas missing values (`pd.isna`). -/
structure EarningsOngoingRow where
  regularityOfPayment : Option String
  ongoingValue : Option ℚ
  periodForHoursWorked : Option String
  hoursWorked : Option ℚ
  calculationStartDate : Date
  calculationEndDate : Date

/-- Whole-month count between two dates as computed by both normalizer
branches: `(end.year - start.year) * 12 + (end.month - start.month)`,
ignoring the day of month. -/
def monthsBetween (s e : Date) : ℤ :=
  ((e.year : ℤ) - (s.year : ℤ)) * 12 + ((e.month : ℤ) - (s.month : ℤ))

/-- `calculate_earnings_value(r)` from analyse_data.py: 0 on a missing
regularity or value, 0 on a reversed window, otherwise the ongoing value
scaled by whole months (Monthly), months/3 (Quarterly) or months/12
(Yearly); any other regularity — including "Weekly" — yields 0. -/
def calculate_earnings_value (r : EarningsOngoingRow) : ℚ :=
  match r.regularityOfPayment, r.ongoingValue with
  | some reg, some v =>
    if dateLt r.calculationEndDate r.calculationStartDate then 0
    else
      let numMonths := monthsBetween r.calculationStartDate r.calculationEndDate
      if reg = "Monthly" then v * (numMonths : ℚ)
      else if reg = "Quarterly" then v * ((numMonths : ℚ) / 3)
      else if reg = "Yearly" then v * ((numMonths : ℚ) / 12)
      else 0
  | _, _ => 0

/-- `calculate_hours_worked(r)` from analyse_data.py: same shape as
`calculate_earnings_value` but driven by `PeriodForHoursWorked` and
`HoursWorked`, with an additional "Weekly" branch multiplying by the
truncated count of whole 7-day periods (`(end - start).days // 7`,
Python floor division). -/
def calculate_hours_worked (r : EarningsOngoingRow) : ℚ :=
  match r.periodForHoursWorked, r.hoursWorked with
  | some p, some hw =>
    if dateLt r.calculationEndDate r.calculationStartDate then 0
    else if p = "Weekly" then
      hw * ((Int.fdiv (rataDie r.calculationEndDate - rataDie r.calculationStartDate) 7 : ℤ) : ℚ)
    else
      let numMonths := monthsBetween r.calculationStartDate r.calculationEndDate
      if p = "Monthly" then hw * (numMonths : ℚ)
      else if p = "Quarterly" then hw * ((numMonths : ℚ) / 3)
      else if p = "Yearly" then hw * ((numMonths : ℚ) / 12)
      else 0
  | _, _ => 0

/-! ## Election-cutoff filters and current-term aggregates
(expenses_web_scrape.py filter_and_copy_ipsa_data, collate_data.py
ipsa_basic, analyse_data.py load_and_filter_hospitality and
outside_earnings_analysis) -/

/-- Date of the most recent general election, the fixed cutoff used by
every current-term filter in the source ("2024-07-04"). -/
def electionCutoff : Date := ⟨2024, 7, 4⟩

/-- One IPSA expense entry of an MP (fields used by the pipeline). -/
structure Expense where
  date : Date
  category : String
  expenseType : Option String
  amountClaimed : ℚ

/-- `filter_and_copy_ipsa_data` (expenses_web_scrape.py): keeps exactly
the expenses dated on or after the election cutoff
(`expense["date"] >= "2024-07-04T00:00:00"`). -/
def filterExpensesSinceElection (l : List Expense) : List Expense :=
  l.filter (fun e => decide (dateLe electionCutoff e.date))

/-- `ipsa_basic` overall expense total (collate_data.py line 42): sum of
`amountClaimed` over entries dated on or after the cutoff. -/
def expensesTotal (l : List Expense) : ℚ :=
  ((l.filter (fun e => decide (dateLe electionCutoff e.date))).map
    (fun e => e.amountClaimed)).sum

/-- `ipsa_basic` per-category total (collate_data.py lines 46-50): sum of
`amountClaimed` over all entries of the given category in its input. -/
def expensesCategoryTotal (c : String) (l : List Expense) : ℚ :=
  ((l.filter (fun e => e.category == c)).map (fun e => e.amountClaimed)).sum

/-- `ipsa_basic` Accommodation subcategory total (collate_data.py lines
52-60): sum over entries with category "Accommodation" and the given
`expenseType`. -/
def expensesSubcategoryTotal (s : String) (l : List Expense) : ℚ :=
  ((l.filter (fun e => e.category == "Accommodation" && e.expenseType == some s)).map
    (fun e => e.amountClaimed)).sum

/-- One row of the hospitality register (PublishedInterest-Category_3). -/
structure HospRow where
  mnisId : ℕ
  value : ℚ
  registered : Option String
  acceptedDate : Option Date
  paymentDescription : Option String
  donorName : String
  donorCompanyIdentifier : Option String

/-- The description terms filtered out of the hospitality table
(analyse_data.py lines 140-141). -/
def filterOutTerms : List String :=
  ["legal advice", "legal services", "medical advice", "medical services",
   "medical imagery", "legal costs", " my solicitor", "the solicitor",
   "legal fees", "appear", "national liberal club"]

/-- Python `df["PaymentDescription"].str.lower().str.contains(term.lower(),
na=False)` for one row: false on a missing description. -/
def descContains (desc : Option String) (term : String) : Bool :=
  match desc with
  | none => false
  | some s => containsSub (pyLower s).data (pyLower term).data

/-- Row predicate of the first hospitality filter (analyse_data.py line
135): `Registered` present and `AcceptedDate >= "2024-07-04"`. -/
def hospDateOk (r : HospRow) : Bool :=
  r.registered.isSome &&
    (match r.acceptedDate with
     | some d => decide (dateLe electionCutoff d)
     | none => false)

/-- `load_and_filter_hospitality` (analyse_data.py): date/registration
filter followed by one exclusion pass per filtered-out term. -/
def load_and_filter_hospitality (l : List HospRow) : List HospRow :=
  filterOutTerms.foldl
    (fun acc term => acc.filter (fun r => !(descContains r.paymentDescription term)))
    (l.filter hospDateOk)

/-- Per-MP hospitality total (`hospitality_analysis`, groupby sum of
`Value` over the filtered table). -/
def totalHospitalityValue (mp : ℕ) (l : List HospRow) : ℚ :=
  (((load_and_filter_hospitality l).filter (fun r => r.mnisId == mp)).map
    (fun r => r.value)).sum

/-- Per-MP count of filtered hospitality entries with `Value >= 500`
(`hospitality_analysis`, expensive_gifts_count). -/
def expensiveGiftsCount (mp : ℕ) (l : List HospRow) : ℕ :=
  ((load_and_filter_hospitality l).filter
    (fun r => r.mnisId == mp && decide ((500 : ℚ) ≤ r.value))).length

/-- One row of the ad-hoc outside-earnings table
(PublishedInterest-Category_1.1). -/
structure AdhocRow where
  parentInterestId : ℕ
  value : ℚ
  receivedDate : Date

/-- The ad-hoc earnings date filter (analyse_data.py line 354):
`ReceivedDate >= "2024-07-04"`. -/
def filterAdhocSinceElection (l : List AdhocRow) : List AdhocRow :=
  l.filter (fun r => decide (dateLe electionCutoff r.receivedDate))

/-- Ad-hoc earnings summed per parent interest after the date filter
(feeds the per-MP outside-earnings totals). -/
def adhocValueTotal (pid : ℕ) (l : List AdhocRow) : ℚ :=
  (((filterAdhocSinceElection l).filter (fun r => r.parentInterestId == pid)).map
    (fun r => r.value)).sum

/-! ## Composite score (analyse_data.py, add_personal_analysis) -/

/-- Column names appended to the summary table by the analysis stage
before the Interesting Score is computed, in creation order:
add_personal_analysis lines 18-23 with the columns merged in by
hospitality_analysis and outside_earnings_analysis. -/
def analysisAddedCols : List String :=
  ["Basic Info", "Property Analysis", "Property Score",
   "TotalHospitalityValue", "max_hospitality_value",
   "max_hospitality_description", "max_hospitality_donor",
   "expensive_gifts_count", "DonorCategories", "DonorCategoriesCount",
   "expenses_HospitalityRank", "expenses_HospitalityPercentile",
   "expenses_ExpensiveGiftsRank", "expenses_ExpensiveGiftsPercentile",
   "Hospitality Score", "Hospitality Analysis",
   "TotalOutsideEarnings", "TotalOutsideEarningsCount",
   "TopOutsideEarningsValue", "TopOutsideEarningsSource",
   "TopOutsideEarningsDescription", "TotalOutsideEarnings_rank",
   "TotalOutsideEarnings_percentile",
   "Other Analysis", "Other Score",
   "Outside Earnings Analysis", "Outside Earnings Score"]

/-- The columns summed into the Interesting Score
(add_personal_analysis line 26): every column whose name ends with
" Score". -/
def scoreColumns (cols : List String) : List String :=
  cols.filter (fun c => pyEndsWith c " Score")

/-- `df["Interesting Score"]` (add_personal_analysis lines 26-27): the
row-wise sum over all columns whose name ends with " Score". -/
def interestingScore (cols : List String) (row : String → ℚ) : ℚ :=
  ((scoreColumns cols).map row).sum

/-- The summary-table columns created by the collation stage
(collate_data.py ipsa_basic, multiple_columns_rank_and_percentile,
collate_vote_data, collate_landlord_info) for the categories and tracked
votes present in the current data. -/
def collateStageCols : List String :=
  ["name", "party", "party_id", "constituency", "thumbnail", "gender",
   "current_membership_since", "salary_since_apr25", "salary_since_apr24",
   "expenses_total", "expenses_Accommodation", "expenses_Office Costs",
   "expenses_Staffing", "expenses_Miscellaneous",
   "expenses_Accommodation_Utilities",
   "expenses_Accommodation_Cleaning services", "claimed_for_utilities",
   "expenses_total_rank", "expenses_total_percentile",
   "vote_1841_response", "vote_1841_response_filter",
   "vote_1905_response", "vote_1905_response_filter",
   "vote_2074_response", "vote_2074_response_filter",
   "vote_2078_response", "vote_2078_response_filter",
   "vote_2083_response", "vote_2083_response_filter",
   "TotalProperties", "RentalProperties", "is_landlord"]

/-! ## Narrative block rendering (analyse_data.py, mp_infobox_html) -/

/-- The per-domain (name, narrative, score) triples in the order
`specific_analyses` builds them (mp_infobox_html lines 618-621). -/
def analysesList (p h o e : String × ℚ) : List (String × String × ℚ) :=
  [("Property", p.1, p.2), ("Hospitality", h.1, h.2),
   ("Other", o.1, o.2), ("Outside Earnings", e.1, e.2)]

/-- The order used by `sorted(analyses_dict.items(), key=score,
reverse=True)`: a precedes b when b's score is not larger. -/
def scoreDescRel (a b : String × String × ℚ) : Prop :=
  b.2.2 ≤ a.2.2

instance : DecidableRel scoreDescRel :=
  fun a b => inferInstanceAs (Decidable (b.2.2 ≤ a.2.2))

/-- Python `sorted(..., key=lambda x: x[1][1], reverse=True)` is a stable
descending sort, which insertion sort with `scoreDescRel` implements. -/
def sortedAnalyses (p h o e : String × ℚ) : List (String × String × ℚ) :=
  List.insertionSort scoreDescRel (analysesList p h o e)

/-- The analyses kept by the rendering loop: the sorted analyses whose
narrative text has positive length (`if len(text_content) > 0`). -/
def keptAnalyses (p h o e : String × ℚ) : List (String × String × ℚ) :=
  (sortedAnalyses p h o e).filter (fun a => decide (0 < a.2.1.length))

/-- The inner paragraph of one rendered domain: newlines become
`<br>\n` and the text is wrapped in a left-aligned paragraph. -/
def renderInner (text : String) : String :=
  "<p align=\x27left\x27>" ++ pyReplace text "\n" "<br>\n" ++ "</p>"

/-- One rendered domain block (mp_infobox_html lines 629-644): the inner
paragraph wrapped with the domain's bolded heading. -/
def renderBlock (a : String × String × ℚ) : String :=
  let inner := renderInner a.2.1
  if a.1 = "Property" then
    "<p align=\x27left\x27><strong>Housing and Accommodation:</strong> " ++ inner ++ "</p>"
  else if a.1 = "Hospitality" then
    "<p align=\x27left\x27><strong>Hospitality and Gifts:</strong> " ++ inner ++ "</p>"
  else if a.1 = "Other" then
    "<p align=\x27left\x27><strong>Other Information:</strong> " ++ inner ++ "</p>"
  else if a.1 = "Outside Earnings" then
    "<p align=\x27left\x27><strong>Outside Earnings:</strong> " ++ inner ++ "</p>"
  else inner

/-- The rendered narrative blocks of one MP, in emission order. -/
def analysisBlocks (p h o e : String × ℚ) : List String :=
  (keptAnalyses p h o e).map renderBlock

/-- The narrative section appended to the infobox: each kept block is
appended after a newline (mp_infobox_html lines 645-646). -/
def narrativeSection (p h o e : String × ℚ) : String :=
  (analysisBlocks p h o e).foldl (fun acc b => acc ++ "\n" ++ b) ""

/-! ## Pronoun renderer (analyse_data.py, his_her_pronoun) -/

/-- `his_her_pronoun(text, gender)`: chained `str.replace` calls; the
male substitutions run when gender equals "M" and the female
substitutions run for every other gender value. -/
def his_her_pronoun (text gender : String) : String :=
  if gender = "M" then
    pyReplace (pyReplace (pyReplace (pyReplace (pyReplace (pyReplace
      text "his!her" "his") "His!Her" "His") "he!she" "he") "He!She" "He")
      "him!her" "him") "Him!Her" "Him"
  else
    pyReplace (pyReplace (pyReplace (pyReplace (pyReplace (pyReplace
      text "his!her" "her") "His!Her" "Her") "he!she" "she") "He!She" "She")
      "him!her" "her") "Him!Her" "Her"

/-! ## Donor categorization (analyse_data.py, hospitality_analysis) -/

/-- One row of the donor category reference table
(analyse_data/donor_categories.csv). -/
structure DonorCat where
  donorName : String
  donorCompanyIdentifier : Option String
  category : String
  categorySentence : String

/-- The donor category assigned to a hospitality row
(hospitality_analysis lines 190-198): the `Category` of the first
reference row matching on donor name or company identifier, else "".
pandas `NaN == NaN` is false, so identifiers only match when both are
present. -/
def donorCategoryFor (cats : List DonorCat) (r : HospRow) : String :=
  match cats.find? (fun c =>
      c.donorName == r.donorName ||
      (match c.donorCompanyIdentifier, r.donorCompanyIdentifier with
       | some a, some b => a == b
       | _, _ => false)) with
  | some c => c.category
  | none => ""

/-- The donor-dependent part of `hospitality_analysis` (lines 181-198 and
235): reading the reference file yields `some` table or `none` when the
file is missing (`FileNotFoundError`).  When it is missing the handler
only prints and the subsequent uses of the unbound `donor_categories`
name raise `NameError`, modelled as `Except.error`. -/
def hospitality_analysis_donors (donorTable : Option (List DonorCat))
    (rows : List HospRow) : Except String (List (HospRow × String)) :=
  match donorTable with
  | some cats => Except.ok (rows.map (fun r => (r, donorCategoryFor cats r)))
  | none => Except.error "NameError: name donor_categories is not defined"

/-! ## Vote response joiner (collate_data.py, collate_vote_data) -/

/-- The mutable state `collate_vote_data` threads through one vote: the
response column (initialised to "" for every row), the response filter
column (initialised to False), and the warning log. -/
structure VoteState where
  resp : String → String
  filt : String → Bool
  log : List String

/-- Fresh columns for one vote id: empty response, false filter, no
warnings yet. -/
def initVoteState : VoteState :=
  ⟨fun _ => "", fun _ => false, []⟩

/-- The warning `collate_vote_data` logs for a member absent from the
master table (collate_data.py line 157). -/
def voteWarning (voteId m : String) : String :=
  "Member " ++ m ++ " not found in DataFrame for vote " ++ voteId ++ "."

/-- Processing of one member of one response list (collate_data.py lines
155-167): members absent from the index are logged and skipped; present
members get the response name written, and the filter set when the
response is interesting. -/
def applyMember (index : List String) (voteId rname : String)
    (interesting : List String) (st : VoteState) (m : String) : VoteState :=
  if m ∈ index then
    { st with
      resp := fun x => if x = m then rname else st.resp x,
      filt := if rname ∈ interesting
              then fun x => if x = m then true else st.filt x
              else st.filt }
  else
    { st with log := st.log ++ [voteWarning voteId m] }

/-- Processing of one full response list. -/
def processResponseList (index : List String) (voteId rname : String)
    (interesting : List String) (members : List String) (st : VoteState) : VoteState :=
  members.foldl (applyMember index voteId rname interesting) st

/-- `collate_vote_data(df, vote_id, interesting_values)`: the three
response lists are processed in the fixed order ayes, noes,
novoterecorded. -/
def collate_vote_data (index : List String) (voteId : String)
    (ayes noes novote interesting : List String) (st : VoteState) : VoteState :=
  processResponseList index voteId "novoterecorded" interesting novote
    (processResponseList index voteId "noes" interesting noes
      (processResponseList index voteId "ayes" interesting ayes st))

/-! ## Theorems -/

theorem dateLt_not_dateLe {a b : Date} (h : dateLt a b) : ¬ dateLe b a := by
  rcases h with h | ⟨hy, h⟩
  · rintro (h' | ⟨hy', _⟩) <;> omega
  · rcases h with hm | ⟨hm, hd⟩
    · rintro (h' | ⟨hy', h' | ⟨hm', _⟩⟩) <;> omega
    · rintro (h' | ⟨hy', h' | ⟨hm', hd'⟩⟩) <;> omega

theorem dateLe_not_dateLt {a b : Date} (h : dateLe a b) : ¬ dateLt b a :=
  fun h' => dateLt_not_dateLe h' h

/-- C2: for a non-null period unit among Monthly/Quarterly/Yearly, a
non-null amount and an unreversed window, `calculate_earnings_value`
returns the amount times the whole-month count, scaled by 1, 1/3 or 1/12;
normalize(100, Monthly, 2024-07-04, 2024-09-04) = 200;
normalize(100, Yearly, 2024-01-01, 2024-06-01) = 100 * (5/12); a reversed
window or a missing amount or period unit yields 0 with no error. -/
theorem C2_earnings_normalizer :
    (∀ (r : EarningsOngoingRow) (reg : String) (v : ℚ),
        r.regularityOfPayment = some reg →
        reg ∈ (["Monthly", "Quarterly", "Yearly"] : List String) →
        r.ongoingValue = some v →
        dateLe r.calculationStartDate r.calculationEndDate →
        calculate_earnings_value r =
          v * ((monthsBetween r.calculationStartDate r.calculationEndDate : ℤ) : ℚ) *
            (if reg = "Monthly" then 1 else if reg = "Quarterly" then 1/3 else 1/12)) ∧
    calculate_earnings_value
      ⟨some "Monthly", some 100, none, none, ⟨2024, 7, 4⟩, ⟨2024, 9, 4⟩⟩ = 200 ∧
    calculate_earnings_value
      ⟨some "Yearly", some 100, none, none, ⟨2024, 1, 1⟩, ⟨2024, 6, 1⟩⟩ = 100 * (5 / 12) ∧
    (∀ r : EarningsOngoingRow,
        dateLt r.calculationEndDate r.calculationStartDate →
        calculate_earnings_value r = 0) ∧
    (∀ r : EarningsOngoingRow,
        r.regularityOfPayment = none ∨ r.ongoingValue = none →
        calculate_earnings_value r = 0) := by
  refine ⟨?_, ?_, ?_, ?_, ?_⟩
  · intro r reg v hreg hmem hv hle
    simp only [calculate_earnings_value, hreg, hv]
    rw [if_neg (dateLe_not_dateLt hle)]
    simp only [List.mem_cons, List.not_mem_nil, or_false] at hmem
    rcases hmem with h | h | h <;> subst h
    · rw [if_pos rfl, if_pos rfl]; ring
    · rw [if_neg (by decide), if_pos rfl, if_neg (by decide), if_pos rfl]; ring
    · rw [if_neg (by decide), if_neg (by decide), if_pos rfl,
        if_neg (by decide), if_neg (by decide)]; ring
  · norm_num [calculate_earnings_value, monthsBetween, dateLt]
  · norm_num [calculate_earnings_value, monthsBetween, dateLt]
    rw [if_neg (by decide), if_neg (by decide)]
  · intro r hlt
    rcases hr : r.regularityOfPayment with _ | reg <;>
      rcases hv : r.ongoingValue with _ | v <;>
        simp [calculate_earnings_value, hr, hv, hlt]
  · intro r h
    rcases h with h | h <;>
      rcases hr : r.regularityOfPayment with _ | reg <;>
        rcases hv : r.ongoingValue with _ | v <;>
          simp_all [calculate_earnings_value]

/-- Witness for C2 at a concrete quarterly row spanning six whole months. -/
theorem C2_witness :
    calculate_earnings_value
      ⟨some "Quarterly", some 30, none, none, ⟨2024, 7, 10⟩, ⟨2025, 1, 10⟩⟩ = 60 := by
  have h := C2_earnings_normalizer.1
    ⟨some "Quarterly", some 30, none, none, ⟨2024, 7, 10⟩, ⟨2025, 1, 10⟩⟩
    "Quarterly" 30 rfl (by decide) rfl (by decide)
  norm_num [monthsBetween] at h
  rw [if_neg (by decide)] at h
  exact h

/-- C3 (amended): the Weekly branch — amount times the truncated count of
whole 7-day periods — holds for the hours-worked application
`calculate_hours_worked`; the monetary application
`calculate_earnings_value` has no Weekly branch and returns 0 for every
row whose regularity is "Weekly". -/
theorem C3_weekly_normalizer :
    (∀ (r : EarningsOngoingRow) (hw : ℚ),
        r.periodForHoursWorked = some "Weekly" →
        r.hoursWorked = some hw →
        dateLe r.calculationStartDate r.calculationEndDate →
        calculate_hours_worked r =
          hw * ((Int.fdiv (rataDie r.calculationEndDate - rataDie r.calculationStartDate) 7 : ℤ) : ℚ)) ∧
    (∀ r : EarningsOngoingRow,
        r.regularityOfPayment = some "Weekly" →
        calculate_earnings_value r = 0) := by
  constructor
  · intro r hw hp hhw hle
    simp only [calculate_hours_worked, hp, hhw]
    rw [if_neg (dateLe_not_dateLt hle)]
    simp
  · intro r hreg
    rcases hv : r.ongoingValue with _ | v
    · simp [calculate_earnings_value, hreg, hv]
    · simp only [calculate_earnings_value, hreg, hv]
      split
      · rfl
      · rw [if_neg (by decide), if_neg (by decide), if_neg (by decide)]

/-- Counterexample to C3 as stated: a Weekly row over the window
2024-07-04 to 2024-09-04 (62 days, 8 whole weeks).  The claim requires
`calculate_earnings_value` to return 100 * 8 = 800 there, but the code
returns 0. -/
theorem C3_counterexample :
    calculate_earnings_value
      ⟨some "Weekly", some 100, none, none, ⟨2024, 7, 4⟩, ⟨2024, 9, 4⟩⟩ = 0 ∧
    (100 : ℚ) * ((Int.fdiv (rataDie ⟨2024, 9, 4⟩ - rataDie ⟨2024, 7, 4⟩) 7 : ℤ) : ℚ) = 800 ∧
    (0 : ℚ) ≠ 800 := by
  refine ⟨?_, ?_, by norm_num⟩
  · simp only [calculate_earnings_value]
    rw [if_neg (by decide), if_neg (by decide), if_neg (by decide), if_neg (by decide)]
  · have h : Int.fdiv (rataDie ⟨2024, 9, 4⟩ - rataDie ⟨2024, 7, 4⟩) 7 = 8 := by decide
    rw [h]; norm_num

/-- Witness for C3 at a concrete Weekly hours row: ten hours a week over
the same 62-day window gives 80 hours, and the same regularity on the
monetary side gives 0. -/
theorem C3_witness :
    calculate_hours_worked
      ⟨none, none, some "Weekly", some 10, ⟨2024, 7, 4⟩, ⟨2024, 9, 4⟩⟩ = 80 ∧
    calculate_earnings_value
      ⟨some "Weekly", some 10, none, none, ⟨2024, 7, 4⟩, ⟨2024, 9, 4⟩⟩ = 0 := by
  constructor
  · have h := C3_weekly_normalizer.1
      ⟨none, none, some "Weekly", some 10, ⟨2024, 7, 4⟩, ⟨2024, 9, 4⟩⟩ 10 rfl rfl (by decide)
    rw [h]
    have h8 : Int.fdiv (rataDie ⟨2024, 9, 4⟩ - rataDie ⟨2024, 7, 4⟩) 7 = 8 := by decide
    rw [h8]; norm_num
  · exact C3_weekly_normalizer.2
      ⟨some "Weekly", some 10, none, none, ⟨2024, 7, 4⟩, ⟨2024, 9, 4⟩⟩ rfl

/-- Counterexample to C7 as stated: for the out-of-set gender code "X"
the pronoun placeholders are not left unresolved — the else branch of
`his_her_pronoun` substitutes the female forms, so "his!her" becomes
"her". -/
theorem C7_counterexample :
    his_her_pronoun "his!her" "X" = "her" ∧ "her" ≠ "his!her" := by
  exact ⟨by decide, by decide⟩

/-- C7 (amended): for every gender code other than "M" — including "F",
non-binary and unknown codes, and the empty string — `his_her_pronoun`
behaves exactly like the female branch: every placeholder is resolved to
its female form, none is left unresolved. -/
theorem C7_pronoun_fallthrough (t g : String) (hg : g ≠ "M") :
    his_her_pronoun t g = his_her_pronoun t "F" := by
  unfold his_her_pronoun
  rw [if_neg hg, if_neg (by decide)]

/-- Witness for C7: the non-binary code "X" renders the spec's sample
sentence with female pronouns. -/
theorem C7_witness :
    his_her_pronoun "He!She claimed his!her expenses." "X"
      = his_her_pronoun "He!She claimed his!her expenses." "F" ∧
    his_her_pronoun "He!She claimed his!her expenses." "F"
      = "She claimed her expenses." := by
  exact ⟨C7_pronoun_fallthrough "He!She claimed his!her expenses." "X" (by decide), by decide⟩

/-- C8: the claim says a missing donor category file degrades to a no-op
categorization and the run never fails, but the source's except handler
only prints — the later uses of `donor_categories` (hospitality_analysis
lines 190 and 235) then reference an unbound name and raise `NameError`,
so hospitality analysis does not complete.  This theorem evaluates the
embedded code at the failing input: with the reference table absent the
donor step is an error for every input row set, and with any present
table it succeeds. -/
theorem C8_missing_donor_file_crashes :
    (∀ rows : List HospRow,
        hospitality_analysis_donors none rows =
          Except.error "NameError: name donor_categories is not defined") ∧
    (∀ (cats : List DonorCat) (rows : List HospRow),
        (hospitality_analysis_donors (some cats) rows).isOk = true) := by
  exact ⟨fun _ => rfl, fun _ _ => rfl⟩

theorem filter_middle_false {α : Type} (p : α → Bool) (e : α) (l1 l2 : List α)
    (he : p e = false) :
    (l1 ++ e :: l2).filter p = (l1 ++ l2).filter p := by
  simp [List.filter_append, List.filter_cons, he]

/-- C4: a record dated strictly before the election cutoff 2024-07-04
contributes nothing to any current-term aggregate: inserting it anywhere
into the raw input leaves the filtered expense set (hence the overall,
per-category and per-subcategory expense totals computed from it), the
filtered hospitality set (hence every hospitality aggregate), and the
filtered ad-hoc earnings set (hence the outside-earnings sums)
unchanged. -/
theorem C4_cutoff_excludes_precutoff_records :
    (∀ (e : Expense) (l1 l2 : List Expense), dateLt e.date electionCutoff →
        filterExpensesSinceElection (l1 ++ e :: l2) = filterExpensesSinceElection (l1 ++ l2) ∧
        expensesTotal (l1 ++ e :: l2) = expensesTotal (l1 ++ l2) ∧
        (∀ c, expensesCategoryTotal c (filterExpensesSinceElection (l1 ++ e :: l2)) =
              expensesCategoryTotal c (filterExpensesSinceElection (l1 ++ l2))) ∧
        (∀ s, expensesSubcategoryTotal s (filterExpensesSinceElection (l1 ++ e :: l2)) =
              expensesSubcategoryTotal s (filterExpensesSinceElection (l1 ++ l2)))) ∧
    (∀ (r : HospRow) (d : Date) (l1 l2 : List HospRow),
        r.acceptedDate = some d → dateLt d electionCutoff →
        load_and_filter_hospitality (l1 ++ r :: l2) = load_and_filter_hospitality (l1 ++ l2) ∧
        (∀ mp, totalHospitalityValue mp (l1 ++ r :: l2) = totalHospitalityValue mp (l1 ++ l2)) ∧
        (∀ mp, expensiveGiftsCount mp (l1 ++ r :: l2) = expensiveGiftsCount mp (l1 ++ l2))) ∧
    (∀ (a : AdhocRow) (l1 l2 : List AdhocRow), dateLt a.receivedDate electionCutoff →
        filterAdhocSinceElection (l1 ++ a :: l2) = filterAdhocSinceElection (l1 ++ l2) ∧
        (∀ pid, adhocValueTotal pid (l1 ++ a :: l2) = adhocValueTotal pid (l1 ++ l2))) := by
  refine ⟨?_, ?_, ?_⟩
  · intro e l1 l2 he
    have hfalse : decide (dateLe electionCutoff e.date) = false := by
      simp [dateLt_not_dateLe he]
    have h1 : filterExpensesSinceElection (l1 ++ e :: l2) =
        filterExpensesSinceElection (l1 ++ l2) :=
      filter_middle_false _ e l1 l2 hfalse
    refine ⟨h1, ?_, fun c => by rw [h1], fun s => by rw [h1]⟩
    unfold expensesTotal
    rw [filter_middle_false _ e l1 l2 hfalse]
  · intro r d l1 l2 hd hlt
    have hfalse : hospDateOk r = false := by
      have hdec : decide (dateLe electionCutoff d) = false := by
        simp [dateLt_not_dateLe hlt]
      simp [hospDateOk, hd, hdec]
    have h1 : load_and_filter_hospitality (l1 ++ r :: l2) =
        load_and_filter_hospitality (l1 ++ l2) := by
      unfold load_and_filter_hospitality
      rw [filter_middle_false _ r l1 l2 hfalse]
    exact ⟨h1, fun mp => by unfold totalHospitalityValue; rw [h1],
      fun mp => by unfold expensiveGiftsCount; rw [h1]⟩
  · intro a l1 l2 ha
    have hfalse : decide (dateLe electionCutoff a.receivedDate) = false := by
      simp [dateLt_not_dateLe ha]
    have h1 : filterAdhocSinceElection (l1 ++ a :: l2) =
        filterAdhocSinceElection (l1 ++ l2) :=
      filter_middle_false _ a l1 l2 hfalse
    exact ⟨h1, fun pid => by unfold adhocValueTotal; rw [h1]⟩

/-- Witness for C4 at concrete records dated 2024-01-01 (before the
cutoff), inserted in front of records dated 2024-08-01. -/
theorem C4_witness :
    expensesTotal
      [⟨⟨2024, 1, 1⟩, "Accommodation", some "Utilities", 50⟩,
       ⟨⟨2024, 8, 1⟩, "Accommodation", some "Utilities", 70⟩] =
    expensesTotal [⟨⟨2024, 8, 1⟩, "Accommodation", some "Utilities", 70⟩] ∧
    totalHospitalityValue 7
      [⟨7, 900, some "x", some ⟨2024, 1, 1⟩, none, "Acme", none⟩,
       ⟨7, 600, some "x", some ⟨2024, 8, 1⟩, none, "Acme", none⟩] =
    totalHospitalityValue 7 [⟨7, 600, some "x", some ⟨2024, 8, 1⟩, none, "Acme", none⟩] ∧
    adhocValueTotal 3
      [⟨3, 40, ⟨2024, 1, 1⟩⟩, ⟨3, 10, ⟨2024, 8, 1⟩⟩] =
    adhocValueTotal 3 [⟨3, 10, ⟨2024, 8, 1⟩⟩] := by
  refine ⟨?_, ?_, ?_⟩
  · exact (C4_cutoff_excludes_precutoff_records.1
      ⟨⟨2024, 1, 1⟩, "Accommodation", some "Utilities", 50⟩
      [] [⟨⟨2024, 8, 1⟩, "Accommodation", some "Utilities", 70⟩] (by decide)).2.1
  · exact ((C4_cutoff_excludes_precutoff_records.2.1
      ⟨7, 900, some "x", some ⟨2024, 1, 1⟩, none, "Acme", none⟩ ⟨2024, 1, 1⟩
      [] [⟨7, 600, some "x", some ⟨2024, 8, 1⟩, none, "Acme", none⟩]
      rfl (by decide)).2.1) 7
  · exact ((C4_cutoff_excludes_precutoff_records.2.2
      ⟨3, 40, ⟨2024, 1, 1⟩⟩ [] [⟨3, 10, ⟨2024, 8, 1⟩⟩] (by decide)).2) 3

/-- C5: provided no collation-stage column name ends with " Score" (true
of every column the collation stage creates), the Interesting Score —
the sum over all columns whose name ends with " Score" after the four
analysis domains were added — equals exactly the sum of the Property,
Hospitality, Other and Outside Earnings scores, and nothing else. -/
theorem C5_interesting_score (baseCols : List String) (row : String → ℚ)
    (hbase : ∀ c ∈ baseCols, pyEndsWith c " Score" = false) :
    interestingScore (baseCols ++ analysisAddedCols) row =
      row "Property Score" + row "Hospitality Score" + row "Other Score" +
        row "Outside Earnings Score" := by
  unfold interestingScore scoreColumns
  rw [List.filter_append]
  have h1 : baseCols.filter (fun c => pyEndsWith c " Score") = [] := by
    rw [List.filter_eq_nil_iff]
    intro c hc
    simp [hbase c hc]
  have h2 : analysisAddedCols.filter (fun c => pyEndsWith c " Score") =
      ["Property Score", "Hospitality Score", "Other Score",
       "Outside Earnings Score"] := by decide
  rw [h1, h2]
  simp only [List.nil_append, List.map_cons, List.map_nil, List.sum_cons,
    List.sum_nil]
  ring

/-- Witness for C5: over the concrete collation-stage columns a row that
reads 1 in every column sums to exactly 4. -/
theorem C5_witness :
    interestingScore (collateStageCols ++ analysisAddedCols) (fun _ => 1) = 4 := by
  rw [C5_interesting_score collateStageCols (fun _ => 1) (by decide)]
  norm_num

theorem vs_frame_not_mem (index : List String) (vid rn : String)
    (int : List String) (members : List String) (st : VoteState) (x : String)
    (hx : x ∉ members) :
    (processResponseList index vid rn int members st).resp x = st.resp x ∧
    (processResponseList index vid rn int members st).filt x = st.filt x := by
  induction members generalizing st with
  | nil => exact ⟨rfl, rfl⟩
  | cons m ms ih =>
    have hxm : x ≠ m := fun h => hx (h ▸ List.mem_cons_self m ms)
    have hxs : x ∉ ms := fun h => hx (List.mem_cons_of_mem m h)
    have step : (applyMember index vid rn int st m).resp x = st.resp x ∧
        (applyMember index vid rn int st m).filt x = st.filt x := by
      unfold applyMember
      by_cases hm : m ∈ index
      · rw [if_pos hm]
        constructor
        · simp [hxm]
        · by_cases hi : rn ∈ int <;> simp [hi, hxm]
      · rw [if_neg hm]
        exact ⟨rfl, rfl⟩
    have := ih (applyMember index vid rn int st m) hxs
    exact ⟨this.1.trans step.1, this.2.trans step.2⟩

theorem vs_resp_set (index : List String) (vid rn : String)
    (int : List String) (members : List String) (st : VoteState) (x : String)
    (hidx : x ∈ index) (hmem : x ∈ members) :
    (processResponseList index vid rn int members st).resp x = rn := by
  induction members generalizing st with
  | nil => cases hmem
  | cons m ms ih =>
    by_cases hxs : x ∈ ms
    · exact ih (applyMember index vid rn int st m) hxs
    · have hxm : x = m := by
        rcases List.mem_cons.mp hmem with h | h
        · exact h
        · exact absurd h hxs
      subst hxm
      have hfr := vs_frame_not_mem index vid rn int ms
        (applyMember index vid rn int st x) x hxs
      rw [show (processResponseList index vid rn int (x :: ms) st) =
        processResponseList index vid rn int ms (applyMember index vid rn int st x) from rfl]
      rw [hfr.1]
      unfold applyMember
      rw [if_pos hidx]
      simp

theorem vs_filt_set (index : List String) (vid rn : String)
    (int : List String) (members : List String) (st : VoteState) (x : String)
    (hidx : x ∈ index) (hmem : x ∈ members) :
    (processResponseList index vid rn int members st).filt x =
      (if rn ∈ int then true else st.filt x) := by
  induction members generalizing st with
  | nil => cases hmem
  | cons m ms ih =>
    by_cases hxs : x ∈ ms
    · rw [show (processResponseList index vid rn int (m :: ms) st) =
        processResponseList index vid rn int ms (applyMember index vid rn int st m) from rfl]
      rw [ih (applyMember index vid rn int st m) hxs]
      by_cases hi : rn ∈ int
      · simp [hi]
      · simp only [if_neg hi]
        unfold applyMember
        by_cases hm : m ∈ index
        · rw [if_pos hm]; simp [hi]
        · rw [if_neg hm]
    · have hxm : x = m := by
        rcases List.mem_cons.mp hmem with h | h
        · exact h
        · exact absurd h hxs
      subst hxm
      have hfr := vs_frame_not_mem index vid rn int ms
        (applyMember index vid rn int st x) x hxs
      rw [show (processResponseList index vid rn int (x :: ms) st) =
        processResponseList index vid rn int ms (applyMember index vid rn int st x) from rfl]
      rw [hfr.2]
      unfold applyMember
      rw [if_pos hidx]
      by_cases hi : rn ∈ int <;> simp [hi]

theorem vs_missing_frame (index : List String) (vid rn : String)
    (int : List String) (members : List String) (st : VoteState) (m : String)
    (hm : m ∉ index) :
    (processResponseList index vid rn int members st).resp m = st.resp m ∧
    (processResponseList index vid rn int members st).filt m = st.filt m := by
  induction members generalizing st with
  | nil => exact ⟨rfl, rfl⟩
  | cons m' ms ih =>
    have step : (applyMember index vid rn int st m').resp m = st.resp m ∧
        (applyMember index vid rn int st m').filt m = st.filt m := by
      unfold applyMember
      by_cases hm' : m' ∈ index
      · have hne : m ≠ m' := fun h => hm (h ▸ hm')
        rw [if_pos hm']
        constructor
        · simp [hne]
        · by_cases hi : rn ∈ int <;> simp [hi, hne]
      · rw [if_neg hm']
        exact ⟨rfl, rfl⟩
    have := ih (applyMember index vid rn int st m')
    exact ⟨this.1.trans step.1, this.2.trans step.2⟩

theorem vs_log_mono (index : List String) (vid rn : String)
    (int : List String) (members : List String) (st : VoteState) (x : String)
    (hx : x ∈ st.log) :
    x ∈ (processResponseList index vid rn int members st).log := by
  induction members generalizing st with
  | nil => exact hx
  | cons m ms ih =>
    apply ih
    unfold applyMember
    by_cases hm : m ∈ index
    · rw [if_pos hm]; exact hx
    · rw [if_neg hm]; exact List.mem_append_left _ hx

theorem vs_log_warning (index : List String) (vid rn : String)
    (int : List String) (members : List String) (st : VoteState) (m : String)
    (hmem : m ∈ members) (hidx : m ∉ index) :
    voteWarning vid m ∈ (processResponseList index vid rn int members st).log := by
  induction members generalizing st with
  | nil => cases hmem
  | cons m' ms ih =>
    by_cases hm' : m = m'
    · subst hm'
      rw [show processResponseList index vid rn int (m :: ms) st =
        processResponseList index vid rn int ms (applyMember index vid rn int st m) from rfl]
      apply vs_log_mono
      unfold applyMember
      rw [if_neg hidx]
      exact List.mem_append_right _ (List.mem_singleton.mpr rfl)
    · have : m ∈ ms := by
        rcases List.mem_cons.mp hmem with h | h
        · exact absurd h hm'
        · exact h
      exact ih (applyMember index vid rn int st m') this

theorem vs_congr (index : List String) (vid rn : String)
    (int : List String) (members : List String) (st1 st2 : VoteState)
    (hr : st1.resp = st2.resp) (hf : st1.filt = st2.filt) :
    (processResponseList index vid rn int members st1).resp =
      (processResponseList index vid rn int members st2).resp ∧
    (processResponseList index vid rn int members st1).filt =
      (processResponseList index vid rn int members st2).filt := by
  induction members generalizing st1 st2 with
  | nil => exact ⟨hr, hf⟩
  | cons m ms ih =>
    apply ih
    · unfold applyMember
      by_cases hm : m ∈ index
      · rw [if_pos hm, if_pos hm]
        simp only [hr]
      · rw [if_neg hm, if_neg hm]
        exact hr
    · unfold applyMember
      by_cases hm : m ∈ index
      · rw [if_pos hm, if_pos hm]
        simp only [hr, hf]
      · rw [if_neg hm, if_neg hm]
        exact hf

theorem vs_skip_missing (index : List String) (vid rn : String)
    (int : List String) (m : String) (hm : m ∉ index)
    (l1 l2 : List String) (st : VoteState) :
    (processResponseList index vid rn int (l1 ++ m :: l2) st).resp =
      (processResponseList index vid rn int (l1 ++ l2) st).resp ∧
    (processResponseList index vid rn int (l1 ++ m :: l2) st).filt =
      (processResponseList index vid rn int (l1 ++ l2) st).filt := by
  unfold processResponseList
  rw [List.foldl_append, List.foldl_append]
  rw [show List.foldl (applyMember index vid rn int)
      (List.foldl (applyMember index vid rn int) st l1) (m :: l2) =
    List.foldl (applyMember index vid rn int)
      (applyMember index vid rn int
        (List.foldl (applyMember index vid rn int) st l1) m) l2 from rfl]
  apply vs_congr
  · unfold applyMember
    rw [if_neg hm]
  · unfold applyMember
    rw [if_neg hm]

/-- C9: for each vote, an MP identifier present in the master index and
in exactly one response list ends with its response field equal to that
list's name and its filter field true exactly when that name is
interesting; an identifier absent from the index yields a logged warning
and is skipped (its row values stay at their initial values, and
removing it from a list changes no response or filter value of anyone
else); identifiers in no list keep the initial empty response and false
filter. -/
theorem C9_vote_response_joiner (index : List String) (vid : String)
    (ayes noes novote interesting : List String) :
    (∀ mp, mp ∈ index → mp ∈ ayes → mp ∉ noes → mp ∉ novote →
      (collate_vote_data index vid ayes noes novote interesting initVoteState).resp mp
        = "ayes" ∧
      ((collate_vote_data index vid ayes noes novote interesting initVoteState).filt mp
        = true ↔ "ayes" ∈ interesting)) ∧
    (∀ mp, mp ∈ index → mp ∉ ayes → mp ∈ noes → mp ∉ novote →
      (collate_vote_data index vid ayes noes novote interesting initVoteState).resp mp
        = "noes" ∧
      ((collate_vote_data index vid ayes noes novote interesting initVoteState).filt mp
        = true ↔ "noes" ∈ interesting)) ∧
    (∀ mp, mp ∈ index → mp ∉ ayes → mp ∉ noes → mp ∈ novote →
      (collate_vote_data index vid ayes noes novote interesting initVoteState).resp mp
        = "novoterecorded" ∧
      ((collate_vote_data index vid ayes noes novote interesting initVoteState).filt mp
        = true ↔ "novoterecorded" ∈ interesting)) ∧
    (∀ mp, mp ∉ ayes → mp ∉ noes → mp ∉ novote →
      (collate_vote_data index vid ayes noes novote interesting initVoteState).resp mp = "" ∧
      (collate_vote_data index vid ayes noes novote interesting initVoteState).filt mp
        = false) ∧
    (∀ m, m ∉ index → (m ∈ ayes ∨ m ∈ noes ∨ m ∈ novote) →
      voteWarning vid m ∈
        (collate_vote_data index vid ayes noes novote interesting initVoteState).log ∧
      (collate_vote_data index vid ayes noes novote interesting initVoteState).resp m = "" ∧
      (collate_vote_data index vid ayes noes novote interesting initVoteState).filt m
        = false) ∧
    (∀ m l1 l2, m ∉ index →
      ((collate_vote_data index vid (l1 ++ m :: l2) noes novote interesting
          initVoteState).resp =
        (collate_vote_data index vid (l1 ++ l2) noes novote interesting
          initVoteState).resp) ∧
      ((collate_vote_data index vid ayes (l1 ++ m :: l2) novote interesting
          initVoteState).resp =
        (collate_vote_data index vid ayes (l1 ++ l2) novote interesting
          initVoteState).resp) ∧
      ((collate_vote_data index vid ayes noes (l1 ++ m :: l2) interesting
          initVoteState).resp =
        (collate_vote_data index vid ayes noes (l1 ++ l2) interesting
          initVoteState).resp)) := by
  unfold collate_vote_data
  refine ⟨?_, ?_, ?_, ?_, ?_, ?_⟩
  · intro mp hidx ha hn hv
    have h3 := vs_frame_not_mem index vid "novoterecorded" interesting novote
      (processResponseList index vid "noes" interesting noes
        (processResponseList index vid "ayes" interesting ayes initVoteState)) mp hv
    have h2 := vs_frame_not_mem index vid "noes" interesting noes
      (processResponseList index vid "ayes" interesting ayes initVoteState) mp hn
    have hr := vs_resp_set index vid "ayes" interesting ayes initVoteState mp hidx ha
    have hf := vs_filt_set index vid "ayes" interesting ayes initVoteState mp hidx ha
    refine ⟨h3.1.trans (h2.1.trans hr), ?_⟩
    rw [h3.2, h2.2, hf]
    by_cases hi : "ayes" ∈ interesting <;> simp [hi, initVoteState]
  · intro mp hidx ha hn hv
    have h3 := vs_frame_not_mem index vid "novoterecorded" interesting novote
      (processResponseList index vid "noes" interesting noes
        (processResponseList index vid "ayes" interesting ayes initVoteState)) mp hv
    have h1 := vs_frame_not_mem index vid "ayes" interesting ayes initVoteState mp ha
    have hr := vs_resp_set index vid "noes" interesting noes
      (processResponseList index vid "ayes" interesting ayes initVoteState) mp hidx hn
    have hf := vs_filt_set index vid "noes" interesting noes
      (processResponseList index vid "ayes" interesting ayes initVoteState) mp hidx hn
    refine ⟨h3.1.trans hr, ?_⟩
    rw [h3.2, hf, h1.2]
    by_cases hi : "noes" ∈ interesting <;> simp [hi, initVoteState]
  · intro mp hidx ha hn hv
    have h1 := vs_frame_not_mem index vid "ayes" interesting ayes initVoteState mp ha
    have h2 := vs_frame_not_mem index vid "noes" interesting noes
      (processResponseList index vid "ayes" interesting ayes initVoteState) mp hn
    have hr := vs_resp_set index vid "novoterecorded" interesting novote
      (processResponseList index vid "noes" interesting noes
        (processResponseList index vid "ayes" interesting ayes initVoteState)) mp hidx hv
    have hf := vs_filt_set index vid "novoterecorded" interesting novote
      (processResponseList index vid "noes" interesting noes
        (processResponseList index vid "ayes" interesting ayes initVoteState)) mp hidx hv
    refine ⟨hr, ?_⟩
    rw [hf, h2.2, h1.2]
    by_cases hi : "novoterecorded" ∈ interesting <;> simp [hi, initVoteState]
  · intro mp ha hn hv
    have h3 := vs_frame_not_mem index vid "novoterecorded" interesting novote
      (processResponseList index vid "noes" interesting noes
        (processResponseList index vid "ayes" interesting ayes initVoteState)) mp hv
    have h2 := vs_frame_not_mem index vid "noes" interesting noes
      (processResponseList index vid "ayes" interesting ayes initVoteState) mp hn
    have h1 := vs_frame_not_mem index vid "ayes" interesting ayes initVoteState mp ha
    exact ⟨h3.1.trans (h2.1.trans h1.1), h3.2.trans (h2.2.trans h1.2)⟩
  · intro m hidx hmem
    have h3 := vs_missing_frame index vid "novoterecorded" interesting novote
      (processResponseList index vid "noes" interesting noes
        (processResponseList index vid "ayes" interesting ayes initVoteState)) m hidx
    have h2 := vs_missing_frame index vid "noes" interesting noes
      (processResponseList index vid "ayes" interesting ayes initVoteState) m hidx
    have h1 := vs_missing_frame index vid "ayes" interesting ayes initVoteState m hidx
    refine ⟨?_, h3.1.trans (h2.1.trans h1.1), h3.2.trans (h2.2.trans h1.2)⟩
    rcases hmem with h | h | h
    · apply vs_log_mono
      apply vs_log_mono
      exact vs_log_warning index vid "ayes" interesting ayes initVoteState m h hidx
    · apply vs_log_mono
      exact vs_log_warning index vid "noes" interesting noes
        (processResponseList index vid "ayes" interesting ayes initVoteState) m h hidx
    · exact vs_log_warning index vid "novoterecorded" interesting novote
        (processResponseList index vid "noes" interesting noes
          (processResponseList index vid "ayes" interesting ayes initVoteState)) m h hidx
  · intro m l1 l2 hidx
    have hskip1 := vs_skip_missing index vid "ayes" interesting m hidx l1 l2 initVoteState
    have hs2 := vs_congr index vid "noes" interesting noes _ _ hskip1.1 hskip1.2
    have hs3 := vs_congr index vid "novoterecorded" interesting novote _ _ hs2.1 hs2.2
    refine ⟨hs3.1, ?_, ?_⟩
    · have hskip2 := vs_skip_missing index vid "noes" interesting m hidx l1 l2
        (processResponseList index vid "ayes" interesting ayes initVoteState)
      exact (vs_congr index vid "novoterecorded" interesting novote _ _
        hskip2.1 hskip2.2).1
    · exact (vs_skip_missing index vid "novoterecorded" interesting m hidx l1 l2
        (processResponseList index vid "noes" interesting noes
          (processResponseList index vid "ayes" interesting ayes initVoteState))).1

/-- Witness for C9 on a concrete two-MP index with an unknown identifier
in the ayes list and "noes" configured interesting. -/
theorem C9_witness :
    (collate_vote_data ["a", "b"] "1905" ["a", "x"] ["b"] [] ["noes"]
        initVoteState).resp "a" = "ayes" ∧
    (collate_vote_data ["a", "b"] "1905" ["a", "x"] ["b"] [] ["noes"]
        initVoteState).filt "a" = false ∧
    (collate_vote_data ["a", "b"] "1905" ["a", "x"] ["b"] [] ["noes"]
        initVoteState).resp "b" = "noes" ∧
    (collate_vote_data ["a", "b"] "1905" ["a", "x"] ["b"] [] ["noes"]
        initVoteState).filt "b" = true ∧
    voteWarning "1905" "x" ∈
      (collate_vote_data ["a", "b"] "1905" ["a", "x"] ["b"] [] ["noes"]
        initVoteState).log := by
  have h := C9_vote_response_joiner ["a", "b"] "1905" ["a", "x"] ["b"] [] ["noes"]
  have ha := h.1 "a" (by decide) (by decide) (by decide) (by decide)
  have hb := h.2.1 "b" (by decide) (by decide) (by decide) (by decide)
  have hx := h.2.2.2.2.1 "x" (by decide) (Or.inl (by decide))
  refine ⟨ha.1, ?_, hb.1, ?_, hx.1⟩
  · have : ¬ ("ayes" ∈ (["noes"] : List String)) := by decide
    rcases hf : (collate_vote_data ["a", "b"] "1905" ["a", "x"] ["b"] [] ["noes"]
        initVoteState).filt "a" with _ | _
    · rfl
    · exact absurd (ha.2.mp hf) this
  · exact hb.2.mpr (by decide)

theorem isPrefixOf_append_left {l1 l2 : List Char} (r : List Char)
    (h : List.isPrefixOf l1 l2 = true) : List.isPrefixOf l1 (l2 ++ r) = true := by
  rw [List.isPrefixOf_iff_prefix] at h ⊢
  exact h.trans (List.prefix_append _ _)

theorem renderBlock_heading (a : String × String × ℚ)
    (ha : a.1 = "Property" ∨ a.1 = "Hospitality" ∨ a.1 = "Other" ∨
      a.1 = "Outside Earnings") :
    pyStartsWith (renderBlock a) "<p align=\x27left\x27><strong>" = true := by
  simp only [renderBlock, pyStartsWith]
  rcases ha with h | h | h | h <;> rw [h]
  · rw [if_pos rfl, String.data_append, String.data_append]
    apply isPrefixOf_append_left
    apply isPrefixOf_append_left
    decide
  · rw [if_neg (by decide), if_pos rfl, String.data_append, String.data_append]
    apply isPrefixOf_append_left
    apply isPrefixOf_append_left
    decide
  · rw [if_neg (by decide), if_neg (by decide), if_pos rfl,
      String.data_append, String.data_append]
    apply isPrefixOf_append_left
    apply isPrefixOf_append_left
    decide
  · rw [if_neg (by decide), if_neg (by decide), if_neg (by decide), if_pos rfl,
      String.data_append, String.data_append]
    apply isPrefixOf_append_left
    apply isPrefixOf_append_left
    decide

/-- C6: the rendered narrative block keeps the four analysis domains in
descending score order (the kept list is pairwise ordered by
`scoreDescRel` and is a permutation of the nonempty-narrative domains),
omits every domain whose narrative has zero length, and prefixes every
emitted block with a left-aligned bolded heading. -/
theorem C6_infobox_narrative (p h o e : String × ℚ) :
    List.Pairwise scoreDescRel (keptAnalyses p h o e) ∧
    (keptAnalyses p h o e).Perm
      ((analysesList p h o e).filter (fun a => decide (0 < a.2.1.length))) ∧
    (∀ a ∈ keptAnalyses p h o e, 0 < a.2.1.length) ∧
    (∀ b ∈ analysisBlocks p h o e,
      pyStartsWith b "<p align=\x27left\x27><strong>" = true) := by
  refine ⟨?_, ?_, ?_, ?_⟩
  · haveI : IsTotal (String × String × ℚ) scoreDescRel :=
      ⟨fun a b => le_total b.2.2 a.2.2⟩
    haveI : IsTrans (String × String × ℚ) scoreDescRel :=
      ⟨fun a b c h1 h2 => le_trans h2 h1⟩
    exact (List.sorted_insertionSort scoreDescRel (analysesList p h o e)).filter _
  · exact List.Perm.filter _ (List.perm_insertionSort scoreDescRel (analysesList p h o e))
  · intro a ha
    unfold keptAnalyses at ha
    exact of_decide_eq_true (List.mem_filter.mp ha).2
  · intro b hb
    rcases List.mem_map.mp hb with ⟨a, ha, rfl⟩
    have hmem : a ∈ analysesList p h o e := by
      unfold keptAnalyses at ha
      have h1 : a ∈ sortedAnalyses p h o e := List.mem_of_mem_filter ha
      unfold sortedAnalyses at h1
      exact (List.mem_insertionSort scoreDescRel).mp h1
    simp only [analysesList, List.mem_cons, List.not_mem_nil, or_false] at hmem
    rcases hmem with rfl | rfl | rfl | rfl
    · exact renderBlock_heading _ (Or.inl rfl)
    · exact renderBlock_heading _ (Or.inr (Or.inl rfl))
    · exact renderBlock_heading _ (Or.inr (Or.inr (Or.inl rfl)))
    · exact renderBlock_heading _ (Or.inr (Or.inr (Or.inr rfl)))

/-- Witness for C6 with concrete scores 3, 1, 2, 5 and an empty
hospitality narrative: the kept top entry has nonempty text and the
Property block carries the bolded-heading prefix. -/
theorem C6_witness :
    0 < (("Outside Earnings", "earnn", (5 : ℚ)).2.1).length ∧
    pyStartsWith (renderBlock ("Property", "propn", (3 : ℚ)))
      "<p align=\x27left\x27><strong>" = true := by
  constructor
  · exact (C6_infobox_narrative ("propn", 3) ("", 1) ("othern", 2) ("earnn", 5)).2.2.1
      ("Outside Earnings", "earnn", 5) (by decide)
  · exact (C6_infobox_narrative ("propn", 3) ("", 1) ("othern", 2) ("earnn", 5)).2.2.2
      (renderBlock ("Property", "propn", 3))
      (List.mem_map_of_mem renderBlock (by decide))

theorem find?_cons_true {α : Type} (p : α → Bool) (a : α) (l : List α)
    (h : p a = true) : List.find? p (a :: l) = some a := by
  simp [List.find?_cons, h]

theorem find?_cons_false {α : Type} (p : α → Bool) (a : α) (l : List α)
    (h : p a = false) : List.find? p (a :: l) = List.find? p l := by
  simp [List.find?_cons, h]

theorem find?_map_update (t : Table) (n : String) (v : List ℚ) :
    ((t.map (fun p => if p.1 == n then (n, v) else p)).find? (fun p => p.1 == n)) =
      ((t.find? (fun p => p.1 == n)).map (fun _ => (n, v))) := by
  induction t with
  | nil => rfl
  | cons p ps ih =>
    by_cases hp : (p.1 == n) = true
    · rw [List.map_cons, if_pos hp,
        find?_cons_true (fun q => q.1 == n) (n, v) _ (beq_self_eq_true n),
        find?_cons_true (fun q => q.1 == n) p ps hp]
      rfl
    · have hpf : (p.1 == n) = false := by simpa using hp
      rw [List.map_cons, if_neg hp,
        find?_cons_false (fun q => q.1 == n) p _ hpf,
        find?_cons_false (fun q => q.1 == n) p ps hpf]
      exact ih

theorem find?_map_update_ne (t : Table) (n m : String) (v : List ℚ)
    (hnm : m ≠ n) :
    ((t.map (fun p => if p.1 == n then (n, v) else p)).find? (fun p => p.1 == m)) =
      t.find? (fun p => p.1 == m) := by
  have h1 : ((n : String) == m) = false :=
    beq_eq_false_iff_ne.mpr (fun hc => hnm hc.symm)
  induction t with
  | nil => rfl
  | cons p ps ih =>
    by_cases hp : (p.1 == n) = true
    · have h2 : (p.1 == m) = false := by
        rw [eq_of_beq hp]
        exact h1
      rw [List.map_cons, if_pos hp,
        find?_cons_false (fun q => q.1 == m) (n, v) _ h1,
        find?_cons_false (fun q => q.1 == m) p ps h2]
      exact ih
    · by_cases hm : (p.1 == m) = true
      · rw [List.map_cons, if_neg hp,
          find?_cons_true (fun q => q.1 == m) p _ hm,
          find?_cons_true (fun q => q.1 == m) p ps hm]
      · have hmf : (p.1 == m) = false := by simpa using hm
        rw [List.map_cons, if_neg hp,
          find?_cons_false (fun q => q.1 == m) p _ hmf,
          find?_cons_false (fun q => q.1 == m) p ps hmf]
        exact ih

theorem getCol_setCol_self (t : Table) (n : String) (v : List ℚ) :
    getCol (setCol t n v) n = v := by
  unfold setCol getCol
  by_cases h : t.any (fun p => p.1 == n)
  · rw [if_pos h, find?_map_update]
    rcases hf : t.find? (fun p => p.1 == n) with _ | q
    · rw [List.find?_eq_none] at hf
      rcases List.any_eq_true.mp h with ⟨x, hx, hpx⟩
      exact absurd hpx (hf x hx)
    · rw [hf]
      rfl
  · rw [if_neg h, List.find?_append]
    have hn : t.find? (fun p => p.1 == n) = none := by
      rw [List.find?_eq_none]
      intro x hx
      exact fun hpx => h (List.any_eq_true.mpr ⟨x, hx, hpx⟩)
    rw [hn, find?_cons_true (fun q => q.1 == n) (n, v) [] (beq_self_eq_true n)]
    rfl

theorem getCol_setCol_ne (t : Table) (n m : String) (v : List ℚ) (hnm : m ≠ n) :
    getCol (setCol t n v) m = getCol t m := by
  unfold setCol getCol
  by_cases h : t.any (fun p => p.1 == n)
  · rw [if_pos h, find?_map_update_ne t n m v hnm]
  · have h1 : ((n : String) == m) = false :=
      beq_eq_false_iff_ne.mpr (fun hc => hnm hc.symm)
    rw [if_neg h, List.find?_append,
      find?_cons_false (fun q => q.1 == m) (n, v) [] h1, List.find?_nil]
    rcases hf : t.find? (fun p => p.1 == m) with _ | q <;> rw [hf] <;> rfl

theorem setCol_fresh (t : Table) (n : String) (v : List ℚ)
    (hn : n ∉ colNames t) : setCol t n v = t ++ [(n, v)] := by
  unfold setCol
  rw [if_neg]
  intro h
  rcases List.any_eq_true.mp h with ⟨x, hx, hpx⟩
  exact hn (eq_of_beq hpx ▸ List.mem_map_of_mem (fun p => p.1) hx)

theorem find?_singleton_none (a : String × List ℚ) (n : String)
    (h : (a.1 == n) = false) : List.find? (fun p => p.1 == n) [a] = none := by
  rw [find?_cons_false (fun q => q.1 == n) a [] h, List.find?_nil]

theorem getCol_append (t1 t2 : Table) (n : String)
    (h : t2.find? (fun p => p.1 == n) = none) :
    getCol (t1 ++ t2) n = getCol t1 n := by
  unfold getCol
  rw [List.find?_append, h]
  rcases hf : t1.find? (fun p => p.1 == n) with _ | q <;> rw [hf] <;> rfl

theorem append_ne_of_ne (c a b : String) (hab : a ≠ b) : c ++ a ≠ c ++ b := by
  intro hcon
  apply hab
  have hd : (c ++ a).data = (c ++ b).data := by rw [hcon]
  rw [String.data_append, String.data_append] at hd
  exact congrArg String.mk (List.append_cancel_left hd)

theorem dfrp_cols (t : Table) (c : String) (asc : Bool) :
    getCol (df_rank_and_percentile t c asc) (c ++ "_rank") =
      rankMin asc (getCol t c) ∧
    getCol (df_rank_and_percentile t c asc) (c ++ "_percentile") =
      rankMaxPct asc (rankMin asc (getCol t c)) := by
  have hne : (c ++ "_rank") ≠ (c ++ "_percentile") :=
    append_ne_of_ne c "_rank" "_percentile" (by decide)
  unfold df_rank_and_percentile
  constructor
  · rw [getCol_setCol_ne _ _ _ _ hne, getCol_setCol_self]
  · rw [getCol_setCol_self, getCol_setCol_self]

theorem rankMin_length (asc : Bool) (xs : List ℚ) :
    (rankMin asc xs).length = xs.length := by
  simp [rankMin]

theorem rankMin_getD (xs : List ℚ) (i : ℕ) (hi : i < xs.length) :
    (rankMin false xs).getD i 0 =
      1 + ((xs.filter (fun y => decide (xs.getD i 0 < y))).length : ℚ) := by
  unfold rankMin
  rw [List.getD_eq_getElem _ _ (by simpa using hi), List.getElem_map,
    List.getD_eq_getElem _ _ hi]
  simp

theorem rankMaxPct_getD (rs : List ℚ) (i : ℕ) (hi : i < rs.length) :
    (rankMaxPct false rs).getD i 0 =
      ((rs.filter (fun y => decide (rs.getD i 0 ≤ y))).length : ℚ) /
        (rs.length : ℚ) := by
  unfold rankMaxPct
  rw [List.getD_eq_getElem _ _ (by simpa using hi), List.getElem_map,
    List.getD_eq_getElem _ _ hi]
  simp

theorem rankMin_all_ge_one (asc : Bool) (xs : List ℚ) :
    ∀ y ∈ rankMin asc xs, (1 : ℚ) ≤ y := by
  intro y hy
  rcases List.mem_map.mp hy with ⟨x, hx, rfl⟩
  exact le_add_of_nonneg_right (Nat.cast_nonneg _)

/-- C1: for descending ranking, every row's rank is 1 plus the number of
strictly larger values (so equal values share a rank), the percentile is
the number of rows whose rank is at least this row's rank divided by the
row count, rows with equal values share the rank, rows with equal ranks
share the percentile, and a rank of 1 yields percentile exactly 1; on
the concrete column [10, 10, 5] the added columns are [1, 1, 3] and
[1, 1, 1/3]. -/
theorem C1_ranking_engine :
    (∀ (t : Table) (c : String) (i j : ℕ),
      i < (getCol t c).length → j < (getCol t c).length →
      ((rankColOf t c).getD i 0 =
        1 + (((getCol t c).filter
          (fun y => decide ((getCol t c).getD i 0 < y))).length : ℚ)) ∧
      ((getCol t c).getD i 0 = (getCol t c).getD j 0 →
        (rankColOf t c).getD i 0 = (rankColOf t c).getD j 0) ∧
      ((pctColOf t c).getD i 0 =
        (((rankColOf t c).filter
          (fun y => decide ((rankColOf t c).getD i 0 ≤ y))).length : ℚ) /
          ((getCol t c).length : ℚ)) ∧
      ((rankColOf t c).getD i 0 = (rankColOf t c).getD j 0 →
        (pctColOf t c).getD i 0 = (pctColOf t c).getD j 0) ∧
      ((rankColOf t c).getD i 0 = 1 → (pctColOf t c).getD i 0 = 1)) ∧
    rankColOf [("v", [10, 10, 5])] "v" = [1, 1, 3] ∧
    pctColOf [("v", [10, 10, 5])] "v" = [1, 1, 1 / 3] := by
  have hrank : ∀ (t : Table) (c : String),
      rankColOf t c = rankMin false (getCol t c) :=
    fun t c => (dfrp_cols t c false).1
  have hpct : ∀ (t : Table) (c : String),
      pctColOf t c = rankMaxPct false (rankMin false (getCol t c)) :=
    fun t c => (dfrp_cols t c false).2
  refine ⟨?_, ?_, ?_⟩
  · intro t c i j hi hj
    have hlen : (rankMin false (getCol t c)).length = (getCol t c).length :=
      rankMin_length false (getCol t c)
    have hri : i < (rankMin false (getCol t c)).length := hlen ▸ hi
    have hrj : j < (rankMin false (getCol t c)).length := hlen ▸ hj
    have ha : (rankColOf t c).getD i 0 =
        1 + (((getCol t c).filter
          (fun y => decide ((getCol t c).getD i 0 < y))).length : ℚ) := by
      rw [hrank]
      exact rankMin_getD (getCol t c) i hi
    have haj : (rankColOf t c).getD j 0 =
        1 + (((getCol t c).filter
          (fun y => decide ((getCol t c).getD j 0 < y))).length : ℚ) := by
      rw [hrank]
      exact rankMin_getD (getCol t c) j hj
    have hc : (pctColOf t c).getD i 0 =
        (((rankColOf t c).filter
          (fun y => decide ((rankColOf t c).getD i 0 ≤ y))).length : ℚ) /
          ((getCol t c).length : ℚ) := by
      rw [hpct, hrank, rankMaxPct_getD (rankMin false (getCol t c)) i hri, hlen]
    have hcj : (pctColOf t c).getD j 0 =
        (((rankColOf t c).filter
          (fun y => decide ((rankColOf t c).getD j 0 ≤ y))).length : ℚ) /
          ((getCol t c).length : ℚ) := by
      rw [hpct, hrank, rankMaxPct_getD (rankMin false (getCol t c)) j hrj, hlen]
    refine ⟨ha, ?_, hc, ?_, ?_⟩
    · intro hterm
      rw [ha, haj, hterm]
    · intro hterm
      rw [hc, hcj, hterm]
    · intro h1
      rw [hc, h1]
      have hall : (rankColOf t c).filter (fun y => decide ((1 : ℚ) ≤ y)) =
          rankColOf t c := by
        rw [List.filter_eq_self]
        intro a hamem
        rw [hrank] at hamem
        exact decide_eq_true (rankMin_all_ge_one false (getCol t c) a hamem)
      rw [hall, hrank, hlen]
      have hne : ((getCol t c).length : ℚ) ≠ 0 :=
        Nat.cast_ne_zero.mpr (by omega)
      exact div_self hne
  · rw [hrank]
    norm_num [getCol, List.find?, rankMin, List.filter]
  · rw [hpct]
    norm_num [getCol, List.find?, rankMin, rankMaxPct, List.filter]

/-- Witness for C1 on the concrete table with column [10, 10, 5]: the
first row (value 10, rank 1) carries rank 1 + 0 strictly-larger values
and percentile 3/3 = 1. -/
theorem C1_witness :
    (rankColOf [("v", [10, 10, 5])] "v").getD 0 0 =
      1 + (((getCol [("v", [10, 10, 5])] "v").filter
        (fun y => decide ((getCol [("v", [10, 10, 5])] "v").getD 0 0 < y))).length : ℚ) ∧
    ((rankColOf [("v", [10, 10, 5])] "v").getD 0 0 = 1 →
      (pctColOf [("v", [10, 10, 5])] "v").getD 0 0 = 1) := by
  have h := (C1_ranking_engine.1 [("v", [10, 10, 5])] "v" 0 1
    (by norm_num [getCol, List.find?]) (by norm_num [getCol, List.find?]))
  exact ⟨h.1, h.2.2.2.2⟩

/-- Counterexample to C10 as stated: on an input table that already has
a column named `x_rank`, `df_rank_and_percentile(df, "x")` overwrites
that pre-existing column (pandas column assignment replaces, not
appends), so the output does not agree with the input on every
pre-existing column. -/
theorem C10_counterexample :
    "x_rank" ∈ colNames [(("x" : String), [(1 : ℚ), 2]), ("x_rank", [5, 6])] ∧
    getCol (df_rank_and_percentile
      [(("x" : String), [(1 : ℚ), 2]), ("x_rank", [5, 6])] "x" false) "x_rank" = [2, 1] ∧
    getCol [(("x" : String), [(1 : ℚ), 2]), ("x_rank", [5, 6])] "x_rank" = [5, 6] ∧
    ([2, 1] : List ℚ) ≠ [5, 6] := by
  refine ⟨by decide, ?_, by decide, by norm_num⟩
  have h := (dfrp_cols [(("x" : String), [(1 : ℚ), 2]), ("x_rank", [5, 6])] "x" false).1
  rw [show ("x" : String) ++ "_rank" = "x_rank" from by decide] at h
  rw [h]
  norm_num [getCol, List.find?, rankMin, List.filter]

/-- C10 (amended): provided the two derived column names are not already
columns of the input, `df_rank_and_percentile` returns a table whose
column list is the input's followed by exactly the two new columns
`column_rank` and `column_percentile`, and which agrees with the input
on every pre-existing column (same values, same row order); the input
table itself is a value the function never alters (it operates on
`df.copy()`). -/
theorem C10_frame (t : Table) (c : String) (asc : Bool)
    (hrk : (c ++ "_rank") ∉ colNames t)
    (hpc : (c ++ "_percentile") ∉ colNames t) :
    colNames (df_rank_and_percentile t c asc) =
      colNames t ++ [c ++ "_rank", c ++ "_percentile"] ∧
    ∀ n ∈ colNames t, getCol (df_rank_and_percentile t c asc) n = getCol t n := by
  have hne : (c ++ "_rank") ≠ (c ++ "_percentile") :=
    append_ne_of_ne c "_rank" "_percentile" (by decide)
  have e1 : df_rank_and_percentile t c asc =
      setCol (setCol t (c ++ "_rank") (rankMin asc (getCol t c)))
        (c ++ "_percentile")
        (rankMaxPct asc (getCol (setCol t (c ++ "_rank") (rankMin asc (getCol t c)))
          (c ++ "_rank"))) := rfl
  rw [e1, setCol_fresh t _ _ hrk]
  have hpc1 : (c ++ "_percentile") ∉
      colNames (t ++ [(c ++ "_rank", rankMin asc (getCol t c))]) := by
    unfold colNames
    rw [List.map_append]
    intro hmem
    rcases List.mem_append.mp hmem with h | h
    · exact hpc h
    · simp only [List.map_cons, List.map_nil, List.mem_singleton] at h
      exact hne h.symm
  rw [setCol_fresh _ _ _ hpc1]
  constructor
  · unfold colNames
    simp [List.map_append]
  · intro n hn
    have hn1 : n ≠ (c ++ "_rank") := fun h => hrk (h ▸ hn)
    have hn2 : n ≠ (c ++ "_percentile") := fun h => hpc (h ▸ hn)
    exact (getCol_append _ _ n (find?_singleton_none _ n
        (beq_eq_false_iff_ne.mpr (fun hc => hn2 hc.symm)))).trans
      (getCol_append _ _ n (find?_singleton_none _ n
        (beq_eq_false_iff_ne.mpr (fun hc => hn1 hc.symm))))

/-- Witness for C10 on a one-column table: the output is the input
column followed by the two fresh columns, with the input column value
unchanged. -/
theorem C10_witness :
    colNames (df_rank_and_percentile [(("x" : String), [(1 : ℚ), 2])] "x" false) =
      ["x", "x" ++ "_rank", "x" ++ "_percentile"] ∧
    getCol (df_rank_and_percentile [(("x" : String), [(1 : ℚ), 2])] "x" false) "x"
      = [1, 2] := by
  have h := C10_frame [(("x" : String), [(1 : ℚ), 2])] "x" false (by decide) (by decide)
  constructor
  · simpa using h.1
  · exact (h.2 "x" (by decide)).trans (by norm_num [getCol, List.find?])
